import Mathlib

/-!
Verification of the diabetes-predictor numeric pipeline (`diabetes.py`).

The pipeline is embedded shallowly over `ℚ` (exact arithmetic standing in for
Python floats): tolerant per-line row parsing, per-feature statistics
(`analyze`), heuristic weight derivation (`derive_weights`), and scoring
(`predict`, `predict_with_context`, with the hand rolled `approximate_exp`
Taylor series).  Fallible code paths (index errors on short instance vectors,
an unreadable data source) are modelled with `Option`.
-/

namespace Diabetes

/-- A feature row: exactly 8 numeric values (`FEATURE_COUNT = 8`), one per
fixed feature slot. -/
abbrev Row := Fin 8 → ℚ

/-- Per-feature statistics computed by `analyze`.  The source also computes a
population standard deviation per feature (a square root, irrational in
general); no claim concerns it and the model never reads it, so it is not
carried here. -/
structure Stats where
  count : ℕ
  mins : Fin 8 → ℚ
  maxs : Fin 8 → ℚ
  means : Fin 8 → ℚ
  spreads : Fin 8 → ℚ

/-- `analyze(data)`: count, per-feature min/max (initialised from the first
row, updated with strict comparisons), mean (sum divided by `n`), and spread
(`max − min`).  The empty dataset returns the all-zero sentinel. -/
def analyze : List Row → Stats
  | [] => ⟨0, fun _ => 0, fun _ => 0, fun _ => 0, fun _ => 0⟩
  | r0 :: rest =>
    let data := r0 :: rest
    let n : ℚ := (data.length : ℚ)
    let mins : Fin 8 → ℚ := fun j => data.foldl (fun m r => if r j < m then r j else m) (r0 j)
    let maxs : Fin 8 → ℚ := fun j => data.foldl (fun m r => if m < r j then r j else m) (r0 j)
    let means : Fin 8 → ℚ := fun j => (data.map fun r => r j).sum / n
    ⟨data.length, mins, maxs, means, fun j => maxs j - mins j⟩

/-- Inverse spread of feature `j`: `1/spread` when the spread is positive,
`0` for a constant column (no division by zero). -/
def inv_spread (st : Stats) (j : Fin 8) : ℚ :=
  if 0 < st.spreads j then 1 / st.spreads j else 0

/-- `total_inv`: the sum of the per-feature inverse spreads. -/
def total_inv (st : Stats) : ℚ := ∑ j, inv_spread st j

/-- `derive_weights(stats)`: normalised weight vector (`m_list`), bias `b`
chosen so the dataset mean vector scores exactly the threshold, and the fixed
threshold `0.5`. -/
def derive_weights (st : Stats) : (Fin 8 → ℚ) × ℚ × ℚ :=
  let m_list : Fin 8 → ℚ :=
    if 0 < total_inv st then fun j => inv_spread st j / total_inv st else fun _ => 0
  let threshold : ℚ := 1 / 2
  let avg_score : ℚ := ∑ j, m_list j * st.means j
  (m_list, threshold - avg_score, threshold)

/-- The scoring loop `score = b; for j in 0..7: score += m_list[j] * x[j]`.
It reads exactly the first 8 entries of `x`; an instance with fewer than 8
entries raises an index error, modelled as `none`.  Entries past the 8th are
never read. -/
def score_of (m : Fin 8 → ℚ) (b : ℚ) : List ℚ → Option ℚ
  | x0 :: x1 :: x2 :: x3 :: x4 :: x5 :: x6 :: x7 :: _ =>
    some (b + m 0 * x0 + m 1 * x1 + m 2 * x2 + m 3 * x3 + m 4 * x4 + m 5 * x5
        + m 6 * x6 + m 7 * x7)
  | _ => none

/-- `predict`: hard label, `1` iff `score ≥ threshold` (ties go to `1`). -/
def predict (m : Fin 8 → ℚ) (b t : ℚ) (x : List ℚ) : Option ℕ :=
  (score_of m b x).map fun s => if t ≤ s then 1 else 0

/-- State of the `approximate_exp` series loop after `n` iterations:
`(term, total)`, with `term(0) = total(0) = 1` and
`term(n+1) = term(n) · value / (n+1)`, `total(n+1) = total(n) + term(n+1)`. -/
def exp_terms (value : ℚ) : ℕ → ℚ × ℚ
  | 0 => (1, 1)
  | n + 1 =>
    let p := exp_terms value n
    let term := p.1 * value / (n + 1 : ℚ)
    (term, p.2 + term)

/-- `approximate_exp(value)`: clamp the input to `[-60, 60]`, then sum the
40-term Taylor series of the exponential. -/
def approximate_exp (value : ℚ) : ℚ :=
  let v := if 60 < value then 60 else if value < -60 then -60 else value
  (exp_terms v 40).2

/-- `sigs(value) = 1 / (1 + approximate_exp(−value))`: the logistic transform
built on the series approximation. -/
def sigs (value : ℚ) : ℚ := 1 / (1 + approximate_exp (-value))

/-- `predict_with_context`: the hard label together with the likelihood
percentage `sigs(score − threshold) · 100`. -/
def predict_with_context (m : Fin 8 → ℚ) (b t : ℚ) (x : List ℚ) : Option (ℕ × ℚ) :=
  (score_of m b x).map fun s => (if t ≤ s then 1 else 0, sigs (s - t) * 100)

/-- The per-line collection loop of `read_csv`: walk the fields left to
right, append each successfully converted value (`some v`; `none` stands for
a field `try_float` rejects), and stop as soon as 8 values are collected. -/
def collect_row : List (Option ℚ) → List ℚ → List ℚ
  | [], row => row
  | f :: rest, row =>
    match f with
    | some v =>
      let row2 := row ++ [v]
      if row2.length = 8 then row2 else collect_row rest row2
    | none => collect_row rest row

/-- One line of `read_csv`: keep the collected row only when it has exactly 8
numeric values, otherwise drop the line. -/
def parse_line (fields : List (Option ℚ)) : Option (List ℚ) :=
  let row := collect_row fields []
  if row.length = 8 then some row else none

/-- `read_csv`: the data source is `none` when the file cannot be opened or
read (the `except` branch returns `[]`), otherwise the list of lines, each
already split on commas with every field taken through `try_float`
(`some v` for a numeric field, `none` for a rejected one). -/
def read_csv (src : Option (List (List (Option ℚ)))) : List (List ℚ) :=
  match src with
  | none => []
  | some lines => lines.filterMap parse_line

/-- View a parsed row (a length-8 list) as a `Row`. -/
def to_row (l : List ℚ) : Row := fun j => l.getD j 0

/-- `build_runtime_model`: parse the source; an empty dataset yields no model
(`None`), otherwise derive the model from the dataset statistics. -/
def build_runtime_model (src : Option (List (List (Option ℚ)))) :
    Option ((Fin 8 → ℚ) × ℚ × ℚ) :=
  let data := read_csv src
  if data = [] then none else some (derive_weights (analyze (data.map to_row)))

/-- The caller path of `main`: if no model could be built, stop without ever
invoking the scorer; otherwise score the instance. -/
def run_pipeline (src : Option (List (List (Option ℚ)))) (x : List ℚ) : Option ℕ :=
  (build_runtime_model src).bind fun mdl => predict mdl.1 mdl.2.1 mdl.2.2 x

/-- Fully degenerate statistics: every feature constant, all aggregates 0. -/
def stDeg : Stats := ⟨1, fun _ => 0, fun _ => 0, fun _ => 0, fun _ => 0⟩

/-- Statistics of a small non-degenerate dataset (every feature has spread 1). -/
def stUnit : Stats :=
  ⟨2, fun _ => 0, fun _ => 1, fun _ => 1 / 2, fun _ => 1⟩

/-- The two-row dataset of the spec's concrete scenario. -/
def data9 : List Row :=
  [to_row [0, 100, 0, 0, 0, 0, 0, 0], to_row [10, 200, 0, 0, 0, 0, 0, 0]]

/-! ## Small evaluation lemmas -/

lemma fin8_val_zero : ((0 : Fin 8) : ℕ) = 0 := rfl

lemma fin8_val_one : ((1 : Fin 8) : ℕ) = 1 := rfl

lemma fin8_val_two : ((2 : Fin 8) : ℕ) = 2 := rfl

lemma fin8_val_three : ((3 : Fin 8) : ℕ) = 3 := rfl

lemma fin8_val_four : ((4 : Fin 8) : ℕ) = 4 := rfl

lemma fin8_val_five : ((5 : Fin 8) : ℕ) = 5 := rfl

lemma fin8_val_six : ((6 : Fin 8) : ℕ) = 6 := rfl

lemma fin8_val_seven : ((7 : Fin 8) : ℕ) = 7 := rfl

/-! ## The scoring loop reads exactly the first 8 entries -/

lemma score_of_none_iff (m : Fin 8 → ℚ) (b : ℚ) (x : List ℚ) :
    score_of m b x = none ↔ x.length < 8 := by
  rcases x with _ | ⟨a0, _ | ⟨a1, _ | ⟨a2, _ | ⟨a3, _ | ⟨a4, _ | ⟨a5, _ | ⟨a6, _ | ⟨a7, rest⟩⟩⟩⟩⟩⟩⟩⟩ <;>
    simp [score_of]

lemma score_of_take_eight (m : Fin 8 → ℚ) (b : ℚ) (x : List ℚ) :
    score_of m b x = score_of m b (x.take 8) := by
  rcases x with _ | ⟨a0, _ | ⟨a1, _ | ⟨a2, _ | ⟨a3, _ | ⟨a4, _ | ⟨a5, _ | ⟨a6, _ | ⟨a7, rest⟩⟩⟩⟩⟩⟩⟩⟩ <;>
    simp [score_of]

lemma score_of_zero_weights (b : ℚ) (x : List ℚ) (h : 8 ≤ x.length) :
    score_of (fun _ => 0) b x = some b := by
  rcases x with _ | ⟨a0, _ | ⟨a1, _ | ⟨a2, _ | ⟨a3, _ | ⟨a4, _ | ⟨a5, _ | ⟨a6, _ | ⟨a7, rest⟩⟩⟩⟩⟩⟩⟩⟩ <;>
    simp_all [score_of]

/-- Scoring a model on the explicit list of its statistics' means gives
exactly the threshold `1/2`, because the bias was chosen as
`threshold − ⟨weights, means⟩`. -/
lemma score_of_means (st : Stats) :
    score_of (derive_weights st).1 (derive_weights st).2.1
      [st.means 0, st.means 1, st.means 2, st.means 3,
       st.means 4, st.means 5, st.means 6, st.means 7] = some (1 / 2) := by
  simp only [score_of, derive_weights, Option.some.injEq, Fin.sum_univ_eight]
  ring

/-! ## Row-collection loop characterisation -/

lemma collect_row_eq : ∀ (fields : List (Option ℚ)) (row : List ℚ), row.length < 8 →
    collect_row fields row = (row ++ fields.filterMap id).take 8 := by
  intro fields
  induction fields with
  | nil =>
    intro row h
    simp [collect_row, List.take_of_length_le h.le]
  | cons f rest ih =>
    intro row h
    cases f with
    | none =>
      rw [collect_row, ih row h]
      simp
    | some v =>
      rw [collect_row]
      by_cases h8 : (row ++ [v]).length = 8
      · rw [if_pos h8,
          show row ++ (List.filterMap id (some v :: rest)) =
            (row ++ [v]) ++ rest.filterMap id by simp, ← h8, List.take_left]
      · have hlt : (row ++ [v]).length < 8 := by
          rw [List.length_append, List.length_singleton] at h8 ⊢
          omega
        rw [if_neg h8, ih _ hlt]
        congr 1
        simp

/-! ## Fold bounds for the statistics pass -/

lemma foldl_min_le_init (j : Fin 8) (data : List Row) : ∀ a : ℚ,
    data.foldl (fun m r => if r j < m then r j else m) a ≤ a := by
  induction data with
  | nil => intro a; simp
  | cons s rest ih =>
    intro a
    rw [List.foldl_cons]
    refine (ih _).trans ?_
    split_ifs with hlt
    · exact le_of_lt hlt
    · exact le_refl a

lemma foldl_min_le_mem (j : Fin 8) (data : List Row) : ∀ (a : ℚ), ∀ r ∈ data,
    data.foldl (fun m r => if r j < m then r j else m) a ≤ r j := by
  induction data with
  | nil => intro a r hr; cases hr
  | cons s rest ih =>
    intro a r hr
    rw [List.foldl_cons]
    rcases List.mem_cons.mp hr with h | h
    · subst h
      refine (foldl_min_le_init j rest _).trans ?_
      split_ifs with hlt
      · exact le_refl _
      · exact le_of_not_lt hlt
    · exact ih _ r h

lemma foldl_init_le_max (j : Fin 8) (data : List Row) : ∀ a : ℚ,
    a ≤ data.foldl (fun m r => if m < r j then r j else m) a := by
  induction data with
  | nil => intro a; simp
  | cons s rest ih =>
    intro a
    rw [List.foldl_cons]
    refine le_trans ?_ (ih _)
    split_ifs with hlt
    · exact le_of_lt hlt
    · exact le_refl a

lemma foldl_mem_le_max (j : Fin 8) (data : List Row) : ∀ (a : ℚ), ∀ r ∈ data,
    r j ≤ data.foldl (fun m r => if m < r j then r j else m) a := by
  induction data with
  | nil => intro a r hr; cases hr
  | cons s rest ih =>
    intro a r hr
    rw [List.foldl_cons]
    rcases List.mem_cons.mp hr with h | h
    · subst h
      refine le_trans ?_ (foldl_init_le_max j rest _)
      split_ifs with hlt
      · exact le_refl _
      · exact le_of_not_lt hlt
    · exact ih _ r h

lemma mul_length_le_sum (l : List ℚ) (c : ℚ) (h : ∀ x ∈ l, c ≤ x) :
    c * l.length ≤ l.sum := by
  induction l with
  | nil => simp
  | cons x l ih =>
    have hx := h x (List.mem_cons_self x l)
    have hl := ih fun y hy => h y (List.mem_cons_of_mem x hy)
    rw [List.sum_cons, List.length_cons]
    push_cast
    linarith

lemma sum_le_mul_length (l : List ℚ) (c : ℚ) (h : ∀ x ∈ l, x ≤ c) :
    l.sum ≤ c * l.length := by
  induction l with
  | nil => simp
  | cons x l ih =>
    have hx := h x (List.mem_cons_self x l)
    have hl := ih fun y hy => h y (List.mem_cons_of_mem x hy)
    rw [List.sum_cons, List.length_cons]
    push_cast
    linarith

/-! ## Claim theorems -/

/-- C10: for every model and every instance vector, the label returned by
`predict` equals the first component of the pair returned by
`predict_with_context`: the two scoring paths compute the same score and
apply the same tie rule. -/
theorem predict_refines_predict_with_context (m : Fin 8 → ℚ) (b t : ℚ) (x : List ℚ) :
    predict m b t x = (predict_with_context m b t x).map Prod.fst := by
  cases h : score_of m b x <;> simp [predict, predict_with_context, h]

/-- C4, as stated, is false: a vector with more than 8 entries is not
rejected — `predict` and `predict_with_context` silently score its first 8
entries.  Here a 9-entry vector is scored to a label (score `1/2`, tie rule
gives label 1, likelihood 50). -/
theorem scorer_accepts_long_vector :
    ([(1 : ℚ), 2, 3, 4, 5, 6, 7, 8, 9] : List ℚ).length ≠ 8 ∧
    predict (fun _ => 0) (1 / 2) (1 / 2) [1, 2, 3, 4, 5, 6, 7, 8, 9] = some 1 ∧
    predict_with_context (fun _ => 0) (1 / 2) (1 / 2) [1, 2, 3, 4, 5, 6, 7, 8, 9] =
      some (1, 50) := by
  refine ⟨by norm_num, ?_, ?_⟩ <;>
    norm_num [predict, predict_with_context, score_of, sigs, approximate_exp, exp_terms]

/-- C4 (amended): the scorer rejects (index error, modelled `none`) exactly
the vectors with fewer than 8 entries; a vector with 8 or more entries is
scored using exactly its first 8 entries, entries beyond the 8th being
silently ignored. -/
theorem scorer_shape_behavior (m : Fin 8 → ℚ) (b t : ℚ) (x : List ℚ) :
    (predict m b t x = none ↔ x.length < 8) ∧
    (predict_with_context m b t x = none ↔ x.length < 8) ∧
    predict m b t x = predict m b t (x.take 8) ∧
    predict_with_context m b t x = predict_with_context m b t (x.take 8) := by
  refine ⟨?_, ?_, ?_, ?_⟩
  · simp [predict, score_of_none_iff]
  · simp [predict_with_context, score_of_none_iff]
  · unfold predict; rw [← score_of_take_eight]
  · unfold predict_with_context; rw [← score_of_take_eight]

/-- C2: if the total of the inverse spreads is positive the 8 derived
weights sum to exactly 1; if that total is 0 every weight is 0. -/
theorem weights_sum_one_or_zero (st : Stats) :
    (0 < total_inv st → ∑ j, (derive_weights st).1 j = 1) ∧
    (total_inv st = 0 → ∀ j, (derive_weights st).1 j = 0) := by
  constructor
  · intro h
    simp only [derive_weights, if_pos h]
    rw [← Finset.sum_div]
    exact div_self (ne_of_gt h)
  · intro h j
    simp [derive_weights, h]

/-- Witness for C2: on `stUnit` the total of inverse spreads is `8 > 0` and
the weights sum to 1; on the all-constant `stDeg` the total is 0 and the
weights vanish. -/
theorem weights_sum_one_or_zero_witness :
    (∑ j, (derive_weights stUnit).1 j = 1) ∧ (derive_weights stDeg).1 3 = 0 :=
  ⟨(weights_sum_one_or_zero stUnit).1
      (by norm_num [total_inv, inv_spread, stUnit, Fin.sum_univ_eight]),
   (weights_sum_one_or_zero stDeg).2
      (by norm_num [total_inv, inv_spread, stDeg, Fin.sum_univ_eight]) 3⟩

/-- C7: when every feature has zero spread the derived model is degenerate —
all-zero weights and bias exactly the threshold `1/2` — and scoring any
length-8 instance returns label 1 by the tie rule. -/
theorem degenerate_model_predicts_one (st : Stats) (h : ∀ j, st.spreads j = 0)
    (x : List ℚ) (hx : x.length = 8) :
    (∀ j, (derive_weights st).1 j = 0) ∧ (derive_weights st).2.1 = 1 / 2 ∧
    (derive_weights st).2.2 = 1 / 2 ∧
    predict (derive_weights st).1 (derive_weights st).2.1 (derive_weights st).2.2 x
      = some 1 := by
  have htot : total_inv st = 0 := by simp [total_inv, inv_spread, h]
  have hm : (derive_weights st).1 = fun _ => 0 := by simp [derive_weights, htot]
  have hb : (derive_weights st).2.1 = 1 / 2 := by simp [derive_weights, htot]
  have ht : (derive_weights st).2.2 = 1 / 2 := by simp [derive_weights]
  refine ⟨fun j => by rw [hm], hb, ht, ?_⟩
  rw [hm, hb, ht, predict, score_of_zero_weights _ _ (le_of_eq hx.symm)]
  norm_num

/-- Witness for C7: the all-zero statistics have zero spreads everywhere,
and the all-zero instance is scored to label 1. -/
theorem degenerate_model_predicts_one_witness :
    (∀ j, (derive_weights stDeg).1 j = 0) ∧ (derive_weights stDeg).2.1 = 1 / 2 ∧
    (derive_weights stDeg).2.2 = 1 / 2 ∧
    predict (derive_weights stDeg).1 (derive_weights stDeg).2.1
      (derive_weights stDeg).2.2 [0, 0, 0, 0, 0, 0, 0, 0] = some 1 :=
  degenerate_model_predicts_one stDeg (fun _ => rfl) [0, 0, 0, 0, 0, 0, 0, 0] rfl

/-- C8: an unreadable data source parses to the empty dataset, and whenever
the parsed dataset is empty the model build yields no model and the caller
path stops without invoking the scorer. -/
theorem empty_source_no_model :
    read_csv none = [] ∧
    ∀ (src : Option (List (List (Option ℚ)))) (x : List ℚ),
      read_csv src = [] → build_runtime_model src = none ∧ run_pipeline src x = none := by
  refine ⟨rfl, fun src x h => ?_⟩
  have hb : build_runtime_model src = none := by simp [build_runtime_model, h]
  exact ⟨hb, by simp [run_pipeline, hb]⟩

/-- Witness for C8: the missing-file source yields the empty dataset, no
model, and no prediction. -/
theorem empty_source_no_model_witness :
    build_runtime_model none = none ∧ run_pipeline none [] = none :=
  empty_source_no_model.2 none [] rfl

/-- C5: a line yields a row exactly when at least 8 of its fields convert to
numbers, and the row is the first 8 converted values in order (fields past
the 8th accepted value never influence the result); in particular a line
with exactly 8 numeric fields parses to those values in order and a line
with 7 yields no row. -/
theorem row_parser_characterization :
    (∀ fields : List (Option ℚ),
      parse_line fields =
        if 8 ≤ (fields.filterMap id).length then some ((fields.filterMap id).take 8)
        else none) ∧
    parse_line [some 1, some 2, some 3, some 4, some 5, some 6, some 7, some 8] =
      some [1, 2, 3, 4, 5, 6, 7, 8] ∧
    parse_line [some 1, some 2, some 3, some 4, some 5, some 6, some 7] = none := by
  refine ⟨fun fields => ?_, by decide, by decide⟩
  rw [parse_line, collect_row_eq fields [] (by norm_num), List.nil_append]
  rcases le_or_lt 8 (fields.filterMap id).length with h | h
  · rw [if_pos (by rw [List.length_take]; omega), if_pos h]
  · rw [if_neg (by rw [List.length_take]; omega), if_neg (by omega)]

/-- C6: on a dataset with at least one row, every feature satisfies
`min ≤ mean ≤ max`, and the spread is `max − min`, hence non-negative. -/
theorem analyze_invariants (data : List Row) (hne : data ≠ []) (j : Fin 8) :
    (analyze data).mins j ≤ (analyze data).means j ∧
    (analyze data).means j ≤ (analyze data).maxs j ∧
    (analyze data).spreads j = (analyze data).maxs j - (analyze data).mins j ∧
    0 ≤ (analyze data).spreads j := by
  match data with
  | [] => exact absurd rfl hne
  | r0 :: rest =>
    have hmins : (analyze (r0 :: rest)).mins j =
        (r0 :: rest).foldl (fun m r => if r j < m then r j else m) (r0 j) := rfl
    have hmaxs : (analyze (r0 :: rest)).maxs j =
        (r0 :: rest).foldl (fun m r => if m < r j then r j else m) (r0 j) := rfl
    have hmeans : (analyze (r0 :: rest)).means j =
        ((r0 :: rest).map fun r => r j).sum / ((r0 :: rest).length : ℚ) := rfl
    have hspreads : (analyze (r0 :: rest)).spreads j =
        (analyze (r0 :: rest)).maxs j - (analyze (r0 :: rest)).mins j := rfl
    have hn : (0 : ℚ) < ((r0 :: rest).length : ℚ) := by
      rw [List.length_cons]
      exact_mod_cast Nat.succ_pos rest.length
    have hminmean : (analyze (r0 :: rest)).mins j ≤ (analyze (r0 :: rest)).means j := by
      rw [hmins, hmeans, le_div_iff₀ hn]
      have := mul_length_le_sum ((r0 :: rest).map fun r => r j)
        ((r0 :: rest).foldl (fun m r => if r j < m then r j else m) (r0 j))
        (fun x hx => by
          rcases List.mem_map.mp hx with ⟨r, hr, rfl⟩
          exact foldl_min_le_mem j (r0 :: rest) (r0 j) r hr)
      rwa [List.length_map] at this
    have hmeanmax : (analyze (r0 :: rest)).means j ≤ (analyze (r0 :: rest)).maxs j := by
      rw [hmaxs, hmeans, div_le_iff₀ hn]
      have := sum_le_mul_length ((r0 :: rest).map fun r => r j)
        ((r0 :: rest).foldl (fun m r => if m < r j then r j else m) (r0 j))
        (fun x hx => by
          rcases List.mem_map.mp hx with ⟨r, hr, rfl⟩
          exact foldl_mem_le_max j (r0 :: rest) (r0 j) r hr)
      rwa [List.length_map] at this
    exact ⟨hminmean, hmeanmax, hspreads,
      hspreads ▸ sub_nonneg.mpr (hminmean.trans hmeanmax)⟩

/-- Witness for C6: the two-row scenario dataset satisfies the invariants at
feature 0. -/
theorem analyze_invariants_witness :
    (analyze data9).mins 0 ≤ (analyze data9).means 0 ∧
    (analyze data9).means 0 ≤ (analyze data9).maxs 0 ∧
    (analyze data9).spreads 0 = (analyze data9).maxs 0 - (analyze data9).mins 0 ∧
    0 ≤ (analyze data9).spreads 0 :=
  analyze_invariants data9 (by simp [data9]) 0

/-- C1: for a dataset with at least one row and some feature of positive
spread, scoring the dataset's own mean vector under the derived model gives
exactly the threshold `1/2`, and `predict` returns label 1 by the tie
rule. -/
theorem mean_vector_scores_threshold (data : List Row) (hne : data ≠ [])
    (hsp : ∃ j, 0 < (analyze data).spreads j) :
    score_of (derive_weights (analyze data)).1 (derive_weights (analyze data)).2.1
      [(analyze data).means 0, (analyze data).means 1, (analyze data).means 2,
       (analyze data).means 3, (analyze data).means 4, (analyze data).means 5,
       (analyze data).means 6, (analyze data).means 7] = some (1 / 2) ∧
    (derive_weights (analyze data)).2.2 = 1 / 2 ∧
    predict (derive_weights (analyze data)).1 (derive_weights (analyze data)).2.1
      (derive_weights (analyze data)).2.2
      [(analyze data).means 0, (analyze data).means 1, (analyze data).means 2,
       (analyze data).means 3, (analyze data).means 4, (analyze data).means 5,
       (analyze data).means 6, (analyze data).means 7] = some 1 := by
  have hs := score_of_means (analyze data)
  have ht : (derive_weights (analyze data)).2.2 = 1 / 2 := rfl
  refine ⟨hs, ht, ?_⟩
  rw [predict, hs, ht]
  norm_num

/-- Witness for C1: the two-row scenario dataset is non-empty, feature 0 has
positive spread, and its mean vector scores exactly the threshold with
label 1. -/
theorem mean_vector_scores_threshold_witness :
    score_of (derive_weights (analyze data9)).1 (derive_weights (analyze data9)).2.1
      [(analyze data9).means 0, (analyze data9).means 1, (analyze data9).means 2,
       (analyze data9).means 3, (analyze data9).means 4, (analyze data9).means 5,
       (analyze data9).means 6, (analyze data9).means 7] = some (1 / 2) ∧
    (derive_weights (analyze data9)).2.2 = 1 / 2 ∧
    predict (derive_weights (analyze data9)).1 (derive_weights (analyze data9)).2.1
      (derive_weights (analyze data9)).2.2
      [(analyze data9).means 0, (analyze data9).means 1, (analyze data9).means 2,
       (analyze data9).means 3, (analyze data9).means 4, (analyze data9).means 5,
       (analyze data9).means 6, (analyze data9).means 7] = some 1 :=
  mean_vector_scores_threshold data9 (by simp [data9])
    ⟨0, by norm_num [analyze, data9, to_row, fin8_val_zero]⟩

/-- C9: the full pipeline on the dataset `[[0,100,0,…,0], [10,200,0,…,0]]`:
feature 0 has min 0, max 10, mean 5, spread 10; feature 1 has min 100,
max 200, mean 150, spread 100; every other spread is 0; the weights are
`10/11`, `1/11` and six zeros; the bias is `1/2 − 200/11`; and the instance
`[5,150,0,…,0]` scores exactly `1/2` and is labelled 1. -/
theorem concrete_scenario_pipeline :
    (analyze data9).mins 0 = 0 ∧ (analyze data9).maxs 0 = 10 ∧
    (analyze data9).means 0 = 5 ∧ (analyze data9).spreads 0 = 10 ∧
    (analyze data9).mins 1 = 100 ∧ (analyze data9).maxs 1 = 200 ∧
    (analyze data9).means 1 = 150 ∧ (analyze data9).spreads 1 = 100 ∧
    (analyze data9).spreads 2 = 0 ∧ (analyze data9).spreads 3 = 0 ∧
    (analyze data9).spreads 4 = 0 ∧ (analyze data9).spreads 5 = 0 ∧
    (analyze data9).spreads 6 = 0 ∧ (analyze data9).spreads 7 = 0 ∧
    (derive_weights (analyze data9)).1 0 = 10 / 11 ∧
    (derive_weights (analyze data9)).1 1 = 1 / 11 ∧
    (derive_weights (analyze data9)).1 2 = 0 ∧
    (derive_weights (analyze data9)).1 3 = 0 ∧
    (derive_weights (analyze data9)).1 4 = 0 ∧
    (derive_weights (analyze data9)).1 5 = 0 ∧
    (derive_weights (analyze data9)).1 6 = 0 ∧
    (derive_weights (analyze data9)).1 7 = 0 ∧
    (derive_weights (analyze data9)).2.1 = 1 / 2 - 200 / 11 ∧
    score_of (derive_weights (analyze data9)).1 (derive_weights (analyze data9)).2.1
      [5, 150, 0, 0, 0, 0, 0, 0] = some (1 / 2) ∧
    predict (derive_weights (analyze data9)).1 (derive_weights (analyze data9)).2.1
      (derive_weights (analyze data9)).2.2 [5, 150, 0, 0, 0, 0, 0, 0] = some 1 := by
  norm_num [analyze, data9, to_row, derive_weights, total_inv, inv_spread, score_of,
    predict, Fin.sum_univ_eight, fin8_val_zero, fin8_val_one, fin8_val_two,
    fin8_val_three, fin8_val_four, fin8_val_five, fin8_val_six, fin8_val_seven]

/-- C3 fails on the code: the likelihood of `predict_with_context` is not
monotonically increasing in the score.  With zero weights the bias is the
score: the scores `21/2` and `41/2` (10 and 20 above the threshold `1/2`)
both get label 1, but the likelihood at the larger score is smaller —
the 40-term series underlying `sigs` is far from `exp` already at `-20`,
well inside the `[-60, 60]` clamp, so `approximate_exp (-20) ≈ 4442` and
the likelihood collapses from `≈ 99.995` to `≈ 0.0225`. -/
theorem likelihood_not_monotone :
    predict_with_context (fun _ => 0) (21 / 2) (1 / 2) [0, 0, 0, 0, 0, 0, 0, 0] =
      some (1, sigs 10 * 100) ∧
    predict_with_context (fun _ => 0) (41 / 2) (1 / 2) [0, 0, 0, 0, 0, 0, 0, 0] =
      some (1, sigs 20 * 100) ∧
    ((21 : ℚ) / 2) < 41 / 2 ∧
    sigs 20 * 100 < sigs 10 * 100 := by
  refine ⟨?_, ?_, by norm_num, ?_⟩
  · norm_num [predict_with_context, score_of]
  · norm_num [predict_with_context, score_of]
  · norm_num [sigs, approximate_exp, exp_terms]

end Diabetes
